import Mathlib

/-!
Verification of the speakup-mcp speech-queue and streaming-playback engine.

Shallow embedding of the core components:
- `tone_mapper.py` (ToneMapper.get_params),
- `queue_manager.py` (SpeakRequest, QueueManager._build_text, and the
  interleaving of QueueManager._play_request with stop_and_clear),
- `history.py` (HistoryStore over SQLite),
- `service.py` (TTSServiceHandler._post_speak),
- `streaming_player.py` (StreamingPlayer start/feed/finish/stop and the
  playback loop).

Python floats are embedded as exact rationals; machine-level float rounding
is irrelevant to every property below (all are equalities between the same
arithmetic expressions, or exact halvings).
-/

namespace SpeakUp

/-! ### tone_mapper.py -/

/-- Parameters for sherpa-onnx TTS synthesis (`ToneParams` dataclass). -/
structure ToneParams where
  noise_scale : ℚ
  noise_scale_w : ℚ
  length_scale : ℚ
  deriving DecidableEq, Repr

/-- The `neutral` entry of `_TONE_PRESETS`. -/
def neutralPreset : ToneParams :=
  { noise_scale := 667/1000, noise_scale_w := 8/10, length_scale := 1 }

/-- The `_TONE_PRESETS` dict: tone name to base parameters; `none` for a
name that is not a key of the dict. -/
def tonePreset (tone : String) : Option ToneParams :=
  if tone = "neutral" then some neutralPreset
  else if tone = "excited" then
    some { noise_scale := 8/10, noise_scale_w := 9/10, length_scale := 9/10 }
  else if tone = "concerned" then
    some { noise_scale := 5/10, noise_scale_w := 6/10, length_scale := 11/10 }
  else if tone = "calm" then
    some { noise_scale := 4/10, noise_scale_w := 5/10, length_scale := 115/100 }
  else if tone = "urgent" then
    some { noise_scale := 7/10, noise_scale_w := 85/100, length_scale := 85/100 }
  else none

/-- `ToneMapper.get_params`: `_TONE_PRESETS.get(tone, _TONE_PRESETS["neutral"])`,
then the preset's `length_scale` is divided by `speed`. -/
def get_params (tone : String) (speed : ℚ) : ToneParams :=
  let base := (tonePreset tone).getD neutralPreset
  { noise_scale := base.noise_scale
    noise_scale_w := base.noise_scale_w
    length_scale := base.length_scale / speed }

/-! ### queue_manager.py — SpeakRequest and _build_text -/

/-- The `SpeakRequest` dataclass. -/
structure SpeakRequest where
  message_id : ℕ
  project : String
  text : String
  tone : String
  speed : ℚ
  announce : String
  deriving DecidableEq, Repr

/-- `QueueManager._build_text`: `not request.project` in Python is truth-value
emptiness of the string, i.e. `project = ""`. -/
def _build_text (request : SpeakRequest) : String :=
  if request.announce = "none" ∨ request.project = "" then request.text
  else if request.announce = "full" then
    "This is Claude from " ++ request.project ++ ": " ++ request.text
  else
    request.project ++ ": " ++ request.text

/-! ### history.py — HistoryStore -/

/-- Ledger entry status values used by `history.py`. -/
inductive Status where
  | queued
  | playing
  | played
  | skipped
  deriving DecidableEq, Repr

/-- One row of the `messages` table (the columns the claims touch). -/
structure Row where
  id : ℕ
  project : String
  text : String
  tone : String
  status : Status
  deriving DecidableEq, Repr

/-- The `messages` table with its SQLite `INTEGER PRIMARY KEY AUTOINCREMENT`
id generator: `nextId` is strictly above every id ever assigned, and each
insert assigns `nextId` and bumps it. -/
structure HistoryStore where
  nextId : ℕ
  rows : List Row
  deriving DecidableEq, Repr

/-- `HistoryStore.add_message`: insert a row with status `'queued'` and return
`cursor.lastrowid`, the freshly assigned autoincrement id. -/
def add_message (s : HistoryStore) (project text tone : String) :
    ℕ × HistoryStore :=
  (s.nextId,
   { nextId := s.nextId + 1
     rows := s.rows ++ [{ id := s.nextId, project := project, text := text,
                          tone := tone, status := Status.queued }] })

/-- Iterate `add_message` over a list of submissions, collecting the returned
ids in submission order. -/
def add_all (s : HistoryStore) :
    List (String × String × String) → List ℕ × HistoryStore
  | [] => ([], s)
  | sub :: subs =>
    let r := add_message s sub.1 sub.2.1 sub.2.2
    let rest := add_all r.2 subs
    (r.1 :: rest.1, rest.2)

/-- `HistoryStore.get_queued`: all rows with status `'queued'`. -/
def get_queued (s : HistoryStore) : List Row :=
  s.rows.filter (fun r => r.status = Status.queued)

/-! ### service.py — TTSServiceHandler._post_speak -/

/-- Python `str.strip()` with no arguments: remove leading and trailing
whitespace characters. -/
def strip (s : String) : String :=
  String.mk
    (((s.data.dropWhile Char.isWhitespace).reverse.dropWhile
      Char.isWhitespace).reverse)

/-- The decoded JSON body of a `POST /api/speak` request; `none` models an
absent field (`data.get(key, default)` supplies the default). -/
structure SpeakBody where
  text : Option String
  project : Option String
  tone : Option String
  speed : Option ℚ
  announce : Option String
  deriving DecidableEq, Repr

/-- Responses `_post_speak` can send. -/
inductive SpeakResponse where
  | clientError (msg : String)
  | success (message_id : ℕ) (queue_position : ℕ)
  deriving DecidableEq, Repr

/-- Shared state `_post_speak` touches: the Ledger and the worker FIFO. -/
structure ServiceState where
  history : HistoryStore
  queue : List SpeakRequest
  deriving DecidableEq, Repr

/-- `TTSServiceHandler._post_speak` after JSON decoding: trim the text, reject
with a 400 if empty, otherwise add to history, enqueue, and answer with the
id and the queue size reported by `get_status`. -/
def _post_speak (st : ServiceState) (body : SpeakBody) :
    SpeakResponse × ServiceState :=
  let text := strip (body.text.getD "")
  if text = "" then
    (SpeakResponse.clientError "No text provided", st)
  else
    let project := body.project.getD "unknown"
    let tone := body.tone.getD "neutral"
    let speed := body.speed.getD 1
    let announce := body.announce.getD "prefix"
    let r := add_message st.history project text tone
    let req : SpeakRequest :=
      { message_id := r.1, project := project, text := text, tone := tone,
        speed := speed, announce := announce }
    let st' : ServiceState := { history := r.2, queue := st.queue ++ [req] }
    (SpeakResponse.success r.1 (get_queued st'.history).length, st')

/-! ### streaming_player.py — StreamingPlayer

The player's mutable fields. The chunk queue holds audio chunks and the
`None` end-of-stream sentinel; `stream` is the open output-device handle
(`some rate` when open). Audio samples are rationals (float32 values). -/

structure PlayerState where
  stream : Option ℕ
  queue : List (Option (List ℚ))
  playing : Bool
  interrupted : Bool
  total_samples : ℕ
  sample_rate : ℕ
  deriving DecidableEq, Repr

/-- Fresh `StreamingPlayer()`. -/
def initPlayer : PlayerState :=
  { stream := none, queue := [], playing := false, interrupted := false,
    total_samples := 0, sample_rate := 22050 }

/-- Errors observable at the embedding level. `deadlock` models a thread
blocking forever on a `threading.Lock` it already holds: the lock is not
reentrant, so the acquisition can never succeed. -/
inductive PlayerErr where
  | deadlock
  deriving DecidableEq, Repr

/-- Acquisition of `self._lock` by a thread: `lockHeld` says whether this
same thread already holds it (in which case it blocks forever). -/
def acquire (lockHeld : Bool) : Except PlayerErr Unit :=
  if lockHeld then Except.error PlayerErr.deadlock else Except.ok ()

/-- `StreamingPlayer._cleanup`: stop and close the stream, drop the handle,
clear the playing flag. -/
def _cleanup (st : PlayerState) : PlayerState :=
  { st with stream := none, playing := false }

/-- `StreamingPlayer.stop` as executed by a thread that holds `self._lock`
iff `lockHeld`: first `with self._lock:` set the interrupted flag, then
drain the chunk queue, put the `None` sentinel, join the playback thread,
and `with self._lock:` clean up. Both lock acquisitions deadlock exactly
when the calling thread already holds the lock. -/
def stop (lockHeld : Bool) (st : PlayerState) : Except PlayerErr PlayerState :=
  match acquire lockHeld with
  | Except.error e => Except.error e
  | Except.ok _ =>
    let st1 := { st with interrupted := true }
    let st2 := { st1 with queue := [none] }
    match acquire lockHeld with
    | Except.error e => Except.error e
    | Except.ok _ => Except.ok (_cleanup st2)

/-- The body of `StreamingPlayer.start` from `self._sample_rate = sample_rate`
on: reset the queue, the interrupted flag and the sample accounting, set
playing, and open a fresh output stream at `rate`. -/
def startBody (st : PlayerState) (rate : ℕ) : PlayerState :=
  { st with
    sample_rate := rate, queue := [], interrupted := false,
    total_samples := 0, playing := true, stream := some rate }

/-- `StreamingPlayer.start`: the whole body runs under `with self._lock:`.
If a session is already active it calls `self.stop()` while holding that
(non-reentrant) lock. -/
def start (st : PlayerState) (rate : ℕ) : Except PlayerErr PlayerState :=
  match (if st.playing then stop true st else Except.ok st) with
  | Except.error e => Except.error e
  | Except.ok st1 => Except.ok (startBody st1 rate)

/-- `StreamingPlayer.feed`: return `False` immediately when interrupted;
otherwise enqueue the chunk (only when non-empty) and add its length to
`self._total_samples`; return `not self._interrupted`. -/
def feed (st : PlayerState) (samples : List ℚ) : Bool × PlayerState :=
  if st.interrupted then (false, st)
  else
    let st' :=
      if 0 < samples.length then
        { st with
          queue := st.queue ++ [some samples],
          total_samples := st.total_samples + samples.length }
      else st
    (!st'.interrupted, st')

/-- Feed a sequence of chunks in order, as `synthesize_streaming` drives the
`callback=self._player.feed`. -/
def feed_all (st : PlayerState) : List (List ℚ) → PlayerState
  | [] => st
  | c :: cs => feed_all (feed st c).2 cs

/-- `StreamingPlayer.finish`: put the `None` sentinel, join the playback
thread, then under the lock compute `total_samples / sample_rate * 1000`
and clean up. -/
def finish (st : PlayerState) : ℚ × PlayerState :=
  let st1 := { st with queue := st.queue ++ [none] }
  ((st1.total_samples : ℚ) / (st1.sample_rate : ℚ) * 1000, _cleanup st1)

/-- `StreamingPlayer._playback_loop`, run against a device that raises
`sd.PortAudioError` on its `(failAfter+1)`-th write when `failAfter = some k`:
consume queue items in order; break on the sentinel, on interruption, or on a
device write error (the error is swallowed by the loop). Returns the number
of samples successfully written to the device. -/
def _playback_loop (interrupted : Bool) (failAfter : Option ℕ) :
    List (Option (List ℚ)) → ℕ → ℕ → ℕ
  | [], _, rendered => rendered
  | none :: _, _, rendered => rendered
  | some c :: rest, writes, rendered =>
    if interrupted then rendered
    else
      match failAfter with
      | some k =>
        if writes = k then rendered
        else _playback_loop interrupted failAfter rest (writes + 1)
          (rendered + c.length)
      | none =>
        _playback_loop interrupted failAfter rest (writes + 1)
          (rendered + c.length)

/-- One uninterrupted session against a possibly failing device: `start` at
`rate`, feed every chunk, `finish`. Returns the `duration_ms` that `finish`
reports to the caller, and the number of samples the playback loop actually
rendered to the device before stopping. -/
def run_session (rate : ℕ) (chunks : List (List ℚ)) (failAfter : Option ℕ) :
    ℚ × ℕ :=
  let st := feed_all (startBody initPlayer rate) chunks
  let rendered := _playback_loop false failAfter (st.queue ++ [none]) 0 0
  ((finish st).1, rendered)

/-! ### queue_manager.py — the _play_request / stop_and_clear race

Single-request interleaving model. The worker executes `_play_request(req)`
as three atomic ledger/slot-touching steps (the lock-protected regions of
the source are atomic; synthesis and playback touch neither the ledger row
nor the current-request slot):

step 0: `with self._lock: self._current_request = request`
step 1: `self._history.mark_playing(request.message_id)`
step 2: `with self._lock:` if the slot still holds this request's id,
        `mark_played` and clear the slot.

A concurrent `stop_and_clear` call contributes its lock-protected section:
if the slot is occupied, `mark_skipped` that request and clear the slot
(the FIFO drain touches only requests the worker never dequeued). -/

structure RaceState where
  current : Bool
  status : Status
  playedMarks : ℕ
  skippedMarks : ℕ
  deriving DecidableEq, Repr

/-- Ledger state of the request before the worker dequeues it. -/
def raceInit : RaceState :=
  { current := false, status := Status.queued, playedMarks := 0,
    skippedMarks := 0 }

/-- The worker's `done`-th atomic step of `_play_request` for this request
(steps beyond the third leave the state alone: the worker has moved on). -/
def playRequestStep (s : RaceState) (done : ℕ) : RaceState :=
  match done with
  | 0 => { s with current := true }
  | 1 => { s with status := Status.playing }
  | 2 =>
    if s.current then
      { s with
        status := Status.played, playedMarks := s.playedMarks + 1,
        current := false }
    else s
  | _ => s

/-- The lock-protected section of `stop_and_clear`: mark the current request
skipped and clear the slot, if one is set. -/
def stopAndClearStep (s : RaceState) : RaceState :=
  if s.current then
    { s with
      status := Status.skipped, skippedMarks := s.skippedMarks + 1,
      current := false }
  else s

/-- Run an interleaving: `true` lets the worker take its next step, `false`
runs one `stop_and_clear` critical section. Returns the final state and the
number of worker steps executed. -/
def runTrace : RaceState × ℕ → List Bool → RaceState × ℕ
  | p, [] => p
  | (s, n), true :: tr => runTrace (playRequestStep s n, n + 1) tr
  | (s, n), false :: tr => runTrace (stopAndClearStep s, n) tr

/-! ### Helper lemmas -/

/-- Every id returned by a run of `add_all` is at least the store's `nextId`. -/
theorem add_all_ids_lb (subs : List (String × String × String)) :
    ∀ s : HistoryStore, ∀ i ∈ (add_all s subs).1, s.nextId ≤ i := by
  induction subs with
  | nil => intro s i hi; simp [add_all] at hi
  | cons sub subs ih =>
    intro s i hi
    simp only [add_all, add_message] at hi
    rcases List.mem_cons.mp hi with h | h
    · omega
    · have := ih _ i h
      simp only at this
      omega

/-- Feeding preserves non-interruption and the sample rate, and accumulates
exactly the fed samples into `total_samples`. -/
theorem feed_all_fields (chunks : List (List ℚ)) :
    ∀ st : PlayerState, st.interrupted = false →
      (feed_all st chunks).interrupted = false ∧
      (feed_all st chunks).sample_rate = st.sample_rate ∧
      (feed_all st chunks).total_samples
        = st.total_samples + (chunks.map List.length).sum := by
  induction chunks with
  | nil => intro st h; simp [feed_all, h]
  | cons c cs ih =>
    intro st h
    have hfeed : (feed st c).2 =
        if 0 < c.length then
          { st with
            queue := st.queue ++ [some c],
            total_samples := st.total_samples + c.length }
        else st := by
      simp [feed, h]
    rw [feed_all, hfeed]
    by_cases hl : 0 < c.length
    · rw [if_pos hl]
      obtain ⟨h1, h2, h3⟩ := ih
        { st with
          queue := st.queue ++ [some c],
          total_samples := st.total_samples + c.length } h
      refine ⟨h1, by simpa using h2, ?_⟩
      rw [h3]; simp; omega
    · rw [if_neg hl]
      have hl0 : c.length = 0 := by omega
      obtain ⟨h1, h2, h3⟩ := ih st h
      exact ⟨h1, h2, by rw [h3]; simp [hl0]⟩

/-- First component of `finish`: the duration formula over the pre-sentinel
state (the sentinel append touches neither `total_samples` nor
`sample_rate`). -/
theorem finish_fst (st : PlayerState) :
    (finish st).1 = (st.total_samples : ℚ) / (st.sample_rate : ℚ) * 1000 := rfl

/-- Duration reported by `finish` after an uninterrupted session: exactly
`total fed samples / rate * 1000`, independent of what the playback thread
managed to render. -/
theorem finish_feed_all_duration (st0 : PlayerState) (rate : ℕ)
    (chunks : List (List ℚ)) :
    (finish (feed_all (startBody st0 rate) chunks)).1
      = ((chunks.map List.length).sum : ℚ) / (rate : ℚ) * 1000 := by
  obtain ⟨h1, h2, h3⟩ := feed_all_fields chunks (startBody st0 rate)
    (by simp [startBody])
  rw [finish_fst, h3, h2]
  have hrate : (startBody st0 rate).sample_rate = rate := rfl
  have htot : (startBody st0 rate).total_samples = 0 := rfl
  rw [hrate, htot]
  push_cast
  ring

/-- Sample count carried by one queue item (a chunk's length; the sentinel
carries none). -/
def itemLen (item : Option (List ℚ)) : ℕ :=
  (item.getD []).length

/-- The playback loop never renders more samples than sit in the queue items
it is given. -/
theorem playback_loop_le (failAfter : Option ℕ) :
    ∀ (items : List (Option (List ℚ))) (writes rendered : ℕ),
      _playback_loop false failAfter items writes rendered
        ≤ rendered + (items.map itemLen).sum := by
  intro items
  induction items with
  | nil => intro w r; simp [_playback_loop]
  | cons item rest ih =>
    intro w r
    match item with
    | none => simp [_playback_loop]
    | some c =>
      simp only [_playback_loop, if_neg (Bool.false_ne_true)]
      cases failAfter with
      | none =>
        have := ih (w + 1) (r + c.length)
        simp only [List.map_cons, List.sum_cons, itemLen, Option.getD_some]
        omega
      | some k =>
        by_cases hw : w = k
        · simp only [if_pos hw, List.map_cons, List.sum_cons, itemLen,
            Option.getD_some]
          omega
        · simp only [if_neg hw]
          have := ih (w + 1) (r + c.length)
          simp only [List.map_cons, List.sum_cons, itemLen, Option.getD_some]
          omega

/-- Feeding appends exactly the non-empty chunks to the queue. -/
theorem feed_all_queue (chunks : List (List ℚ)) :
    ∀ st : PlayerState, st.interrupted = false →
      (feed_all st chunks).queue
        = st.queue ++ (chunks.filter (fun c => 0 < c.length)).map some := by
  induction chunks with
  | nil => intro st h; simp [feed_all]
  | cons c cs ih =>
    intro st h
    have hfeed : (feed st c).2 =
        if 0 < c.length then
          { st with
            queue := st.queue ++ [some c],
            total_samples := st.total_samples + c.length }
        else st := by
      simp [feed, h]
    rw [feed_all, hfeed]
    by_cases hl : 0 < c.length
    · rw [if_pos hl, ih _ (by simp [h])]
      simp [List.filter_cons, hl]
    · rw [if_neg hl, ih st h]
      simp [List.filter_cons, hl]

/-- Dropping the empty chunks does not change the total sample count. -/
theorem sum_filter_pos_length (chunks : List (List ℚ)) :
    ((chunks.filter (fun c => 0 < c.length)).map List.length).sum
      = (chunks.map List.length).sum := by
  induction chunks with
  | nil => rfl
  | cons c cs ih =>
    by_cases h : 0 < c.length
    · simp [List.filter_cons, h, ih]
    · have h0 : c.length = 0 := by omega
      simp [List.filter_cons, h, ih, h0]

/-- Invariant of the `_play_request` / `stop_and_clear` race, indexed by how
many worker steps have executed: before the worker touches the request there
are no terminal marks; while `_play_request` is in flight either the slot is
held and no terminal mark exists, or `stop_and_clear` has claimed it and
recorded exactly the skip mark; once the worker is done, the slot is free and
exactly one terminal mark was ever recorded. -/
def raceInv (s : RaceState) (n : ℕ) : Prop :=
  match n with
  | 0 => s.current = false ∧ s.playedMarks = 0 ∧ s.skippedMarks = 0
  | 1 | 2 =>
    (s.current = true ∧ s.playedMarks = 0 ∧ s.skippedMarks = 0) ∨
    (s.current = false ∧ s.playedMarks = 0 ∧ s.skippedMarks = 1)
  | _ => s.current = false ∧ s.playedMarks + s.skippedMarks = 1

/-- One worker step preserves the race invariant. -/
theorem raceInv_step_worker (s : RaceState) (n : ℕ) (h : raceInv s n) :
    raceInv (playRequestStep s n) (n + 1) := by
  match n with
  | 0 =>
    obtain ⟨h1, h2, h3⟩ := h
    exact Or.inl ⟨rfl, h2, h3⟩
  | 1 =>
    rcases h with h | h
    · exact Or.inl ⟨h.1, h.2.1, h.2.2⟩
    · exact Or.inr ⟨h.1, h.2.1, h.2.2⟩
  | 2 =>
    rcases h with ⟨h1, h2, h3⟩ | ⟨h1, h2, h3⟩
    · show raceInv (if s.current then _ else s) 3
      rw [if_pos (by simp [h1])]
      exact ⟨rfl, by simp [h2, h3]⟩
    · show raceInv (if s.current then _ else s) 3
      rw [if_neg (by simp [h1])]
      exact ⟨h1, by omega⟩
  | (m + 3) => exact h

/-- One `stop_and_clear` critical section preserves the race invariant. -/
theorem raceInv_step_stop (s : RaceState) (n : ℕ) (h : raceInv s n) :
    raceInv (stopAndClearStep s) n := by
  match n with
  | 0 =>
    obtain ⟨h1, h2, h3⟩ := h
    unfold stopAndClearStep
    rw [if_neg (by simp [h1])]
    exact ⟨h1, h2, h3⟩
  | 1 | 2 =>
    rcases h with ⟨h1, h2, h3⟩ | ⟨h1, h2, h3⟩
    · unfold stopAndClearStep
      rw [if_pos (by simp [h1])]
      exact Or.inr ⟨rfl, by simp [h2], by simp [h3]⟩
    · unfold stopAndClearStep
      rw [if_neg (by simp [h1])]
      exact Or.inr ⟨h1, h2, h3⟩
  | (m + 3) =>
    obtain ⟨h1, h2⟩ := h
    unfold stopAndClearStep
    rw [if_neg (by simp [h1])]
    exact ⟨h1, h2⟩

/-- The race invariant holds along every interleaving. -/
theorem runTrace_inv (tr : List Bool) :
    ∀ (s : RaceState) (n : ℕ), raceInv s n →
      raceInv (runTrace (s, n) tr).1 (runTrace (s, n) tr).2 := by
  induction tr with
  | nil => intro s n h; simpa [runTrace] using h
  | cons b tr ih =>
    intro s n h
    cases b
    · exact ih (stopAndClearStep s) n (raceInv_step_stop s n h)
    · exact ih (playRequestStep s n) (n + 1) (raceInv_step_worker s n h)

/-! ### Claim theorems -/

/-- Claim C1 (code evaluation at the failing interleaving): the Ledger status
invariant is violated. When a full `stop_and_clear` runs between the worker's
`self._current_request = request` assignment and its `mark_playing` call, the
entry's status goes `queued` → `skipped` → `playing`: it regresses from the
terminal `skipped` back to `playing`, and even after the worker has executed
all three steps of `_play_request` the entry is stuck at the non-terminal
`playing`. -/
theorem ledger_status_regression :
    (runTrace (raceInit, 0) [true, false]).1.status = Status.skipped ∧
    (runTrace (raceInit, 0) [true, false, true]).1.status = Status.playing ∧
    (runTrace (raceInit, 0) [true, false, true, true]).1.status
      = Status.playing ∧
    (runTrace (raceInit, 0) [true, false, true, true]).2 = 3 := by
  decide

/-- Claim C2 counterexample: under the interleaving where `stop_and_clear`
completes between the worker's current-slot assignment and `mark_playing`,
the request the worker processed to completion (all 3 steps executed) ends
with status `playing` — neither terminal status — so the claim that every
begun request "ends with exactly one terminal status" is false as stated. -/
theorem race_nonterminal_final_status :
    (runTrace (raceInit, 0) [true, false, true, true]).2 = 3 ∧
    (runTrace (raceInit, 0) [true, false, true, true]).1.status
      ≠ Status.played ∧
    (runTrace (raceInit, 0) [true, false, true, true]).1.status
      ≠ Status.skipped := by
  decide

/-- Claim C2 amended: for every request the worker begins and finishes
processing, under any interleaving with `stop_and_clear` critical sections,
exactly one terminal-status recording is ever made for that request — it is
marked `skipped` or marked `played` but never both — thanks to the
compare-and-clear rule on the current-request slot (though the entry's final
status column may be overwritten to the non-terminal `playing`). -/
theorem race_exactly_one_terminal_mark (tr : List Bool)
    (h : 3 ≤ (runTrace (raceInit, 0) tr).2) :
    (runTrace (raceInit, 0) tr).1.playedMarks
        + (runTrace (raceInit, 0) tr).1.skippedMarks = 1 ∧
    ¬((runTrace (raceInit, 0) tr).1.playedMarks = 1 ∧
      (runTrace (raceInit, 0) tr).1.skippedMarks = 1) := by
  have hinv := runTrace_inv tr raceInit 0 (by exact ⟨rfl, rfl, rfl⟩)
  revert hinv h
  obtain ⟨s, n⟩ := runTrace (raceInit, 0) tr
  intro h hinv
  match n, h, hinv with
  | (m + 3), _, hinv =>
    obtain ⟨h1, h2⟩ := hinv
    exact ⟨h2, by omega⟩

/-- Claim C2 witness: the interruption-free interleaving completes the worker
and records exactly one terminal mark. -/
theorem race_exactly_one_terminal_mark_witness :
    3 ≤ (runTrace (raceInit, 0) [true, true, true]).2 ∧
    ((runTrace (raceInit, 0) [true, true, true]).1.playedMarks
        + (runTrace (raceInit, 0) [true, true, true]).1.skippedMarks = 1 ∧
      ¬((runTrace (raceInit, 0) [true, true, true]).1.playedMarks = 1 ∧
        (runTrace (raceInit, 0) [true, true, true]).1.skippedMarks = 1)) :=
  ⟨by decide, race_exactly_one_terminal_mark [true, true, true] (by decide)⟩

/-- Claim C3 (code evaluation at the failing input): calling
`StreamingPlayer.start` while a session is already active deadlocks instead
of performing the forced interruption. `start` holds `self._lock` for its
whole body and calls `self.stop()`, whose own `with self._lock:` re-acquires
the non-reentrant `threading.Lock` the same thread already holds, so the
promised interrupt-then-reopen behaviour never happens. -/
theorem start_while_active_deadlocks (st : PlayerState) (rate : ℕ)
    (h : st.playing = true) :
    start st rate = Except.error PlayerErr.deadlock := by
  simp [start, h, stop, acquire]

/-- Claim C3 witness: a freshly started player is active, and a second
back-to-back `start` deadlocks on it. -/
theorem start_while_active_deadlocks_witness :
    ({ initPlayer with playing := true } : PlayerState).playing = true ∧
    start { initPlayer with playing := true } 22050
      = Except.error PlayerErr.deadlock :=
  ⟨rfl, start_while_active_deadlocks { initPlayer with playing := true }
    22050 rfl⟩

/-- Claim C4: for every session started at a positive `sample_rate` and every
finite sequence of chunks fed with no interruption, the `duration_ms`
returned by `finish()` equals (sum of the fed chunk lengths) divided by
`sample_rate` times 1000 (exactly, in rational arithmetic), regardless of
how the samples are split into chunks. -/
theorem finish_duration_roundtrip (st0 : PlayerState) (rate : ℕ)
    (chunks : List (List ℚ)) (hr : 0 < rate) :
    (finish (feed_all (startBody st0 rate) chunks)).1
      = ((chunks.map List.length).sum : ℚ) / (rate : ℚ) * 1000 :=
  finish_feed_all_duration st0 rate chunks

/-- Claim C4 witness: rate 2, chunks of sizes 1 and 2 give 1500 ms. -/
theorem finish_duration_roundtrip_witness :
    (0 : ℕ) < 2 ∧
    (finish (feed_all (startBody initPlayer 2) [[1], [2, 3]])).1
      = ((([[1], [2, 3]] : List (List ℚ)).map List.length).sum : ℚ)
          / ((2 : ℕ) : ℚ) * 1000 :=
  ⟨by decide, finish_duration_roundtrip initPlayer 2 [[1], [2, 3]] (by decide)⟩

/-- Claim C5 counterexample: with the device failing on its second write, two
fed chunks of 2 samples each at rate 1000 yield 4 ms from `finish()` — the
full nominal duration of everything fed — while only 2 samples (2 ms) were
rendered before the failure. The duration is NOT "shorter than expected": it
does not reflect only what was rendered before the failure. -/
theorem device_failure_duration_counterexample :
    (run_session 1000 [[1, 2], [3, 4]] (some 1)).1 = 4 ∧
    (run_session 1000 [[1, 2], [3, 4]] (some 1)).2 = 2 ∧
    (run_session 1000 [[1, 2], [3, 4]] (some 1)).1
      ≠ ((run_session 1000 [[1, 2], [3, 4]] (some 1)).2 : ℚ)
          / 1000 * 1000 := by
  have hrend : (run_session 1000 [[1, 2], [3, 4]] (some 1)).2 = 2 := by decide
  have hdur : (run_session 1000 [[1, 2], [3, 4]] (some 1)).1 = 4 := by
    have h := finish_feed_all_duration initPlayer 1000 [[1, 2], [3, 4]]
    have heq : (run_session 1000 [[1, 2], [3, 4]] (some 1)).1
        = (finish (feed_all (startBody initPlayer 1000) [[1, 2], [3, 4]])).1 :=
      rfl
    rw [heq, h]
    norm_num
  refine ⟨hdur, hrend, ?_⟩
  rw [hdur, hrend]
  norm_num

/-- Claim C5 amended: a device-level write error while the playback thread is
rendering ends the rendering early (the loop renders at most the samples that
were fed) without raising to the caller — `finish()` still returns normally —
but the returned `duration_ms` is computed from `total_samples`, i.e. from
ALL samples fed (the full nominal duration), including those fed after the
failure, not only those rendered before it. -/
theorem device_failure_degradation (rate : ℕ) (chunks : List (List ℚ))
    (failAfter : Option ℕ) (hr : 0 < rate) :
    (run_session rate chunks failAfter).1
      = ((chunks.map List.length).sum : ℚ) / (rate : ℚ) * 1000 ∧
    (run_session rate chunks failAfter).2 ≤ (chunks.map List.length).sum := by
  constructor
  · exact finish_feed_all_duration initPlayer rate chunks
  · show _playback_loop false failAfter
      ((feed_all (startBody initPlayer rate) chunks).queue ++ [none]) 0 0 ≤ _
    rw [feed_all_queue chunks (startBody initPlayer rate) rfl]
    have hq : (startBody initPlayer rate).queue = [] := rfl
    rw [hq, List.nil_append]
    have hle := playback_loop_le failAfter
      ((chunks.filter (fun c => 0 < c.length)).map some ++ [none]) 0 0
    have hsum : (((chunks.filter (fun c : List ℚ => 0 < c.length)).map some
        ++ [none]).map itemLen).sum = (chunks.map List.length).sum := by
      rw [← sum_filter_pos_length chunks]
      simp only [List.map_append, List.map_map, List.sum_append]
      have hcomp : (itemLen ∘ some : List ℚ → ℕ) = List.length := by
        funext c; rfl
      rw [hcomp]
      simp [itemLen]
    omega

/-- Claim C5 amended witness: the counterexample scenario satisfies the
amended statement. -/
theorem device_failure_degradation_witness :
    (0 : ℕ) < 1000 ∧
    ((run_session 1000 [[1, 2], [3, 4]] (some 1)).1
        = ((([[1, 2], [3, 4]] : List (List ℚ)).map List.length).sum : ℚ)
            / ((1000 : ℕ) : ℚ) * 1000 ∧
      (run_session 1000 [[1, 2], [3, 4]] (some 1)).2
        ≤ (([[1, 2], [3, 4]] : List (List ℚ)).map List.length).sum) :=
  ⟨by decide,
    device_failure_degradation 1000 [[1, 2], [3, 4]] (some 1) (by decide)⟩

/-- Claim C6: the text handed to synthesis is exactly the raw text when the
announce style is `none`; the fixed template `"This is Claude from
{project}: {text}"` when it is `full`; `"{project}: {text}"` when it is
`prefix`; and the raw text with no prefixing whenever the project is empty,
regardless of the announce style. -/
theorem build_text_contract (r : SpeakRequest) :
    (r.announce = "none" → _build_text r = r.text) ∧
    (r.project = "" → _build_text r = r.text) ∧
    (r.announce = "full" → r.project ≠ "" →
      _build_text r = "This is Claude from " ++ r.project ++ ": " ++ r.text) ∧
    (r.announce = "prefix" → r.project ≠ "" →
      _build_text r = r.project ++ ": " ++ r.text) := by
  refine ⟨?_, ?_, ?_, ?_⟩
  · intro h; simp [_build_text, h]
  · intro h; simp [_build_text, h]
  · intro ha hp; simp [_build_text, ha, hp]
  · intro ha hp; simp [_build_text, ha, hp]

/-- Claim C6 witness: each announce style evaluated at a concrete request. -/
theorem build_text_contract_witness :
    _build_text ⟨1, "alpha", "hi", "neutral", 1, "full"⟩
      = "This is Claude from alpha: hi" ∧
    _build_text ⟨2, "alpha", "hi", "neutral", 1, "prefix"⟩ = "alpha: hi" ∧
    _build_text ⟨3, "alpha", "hi", "neutral", 1, "none"⟩ = "hi" ∧
    _build_text ⟨4, "", "hi", "neutral", 1, "full"⟩ = "hi" :=
  ⟨by simpa using (build_text_contract _).2.2.1 rfl (by decide),
   by simpa using (build_text_contract _).2.2.2 rfl (by decide),
   (build_text_contract _).1 rfl,
   (build_text_contract _).2.1 rfl⟩

/-- Claim C7: a submission whose text is empty after trimming (absent, empty,
or whitespace-only) is answered with the 400 client error, and the shared
state is left untouched: no Ledger row is added, nothing is enqueued, and the
queue size is unchanged. -/
theorem post_speak_empty_text_rejected (st : ServiceState) (body : SpeakBody)
    (h : strip (body.text.getD "") = "") :
    (_post_speak st body).1 = SpeakResponse.clientError "No text provided" ∧
    (_post_speak st body).2 = st ∧
    (_post_speak st body).2.history = st.history ∧
    (_post_speak st body).2.queue = st.queue ∧
    (get_queued (_post_speak st body).2.history).length
      = (get_queued st.history).length := by
  simp [_post_speak, h]

/-- Claim C7 witness: a whitespace-only text is rejected with no side
effects on an empty service state. -/
theorem post_speak_empty_text_rejected_witness :
    strip ((⟨some "  ", none, none, none, none⟩ : SpeakBody).text.getD "")
      = "" ∧
    (_post_speak ⟨⟨1, []⟩, []⟩ (⟨some "  ", none, none, none, none⟩ :
        SpeakBody)).1
      = SpeakResponse.clientError "No text provided" :=
  ⟨by decide,
    (post_speak_empty_text_rejected ⟨⟨1, []⟩, []⟩
      ⟨some "  ", none, none, none, none⟩ (by decide)).1⟩

/-- Claim C8: `get_params` resolves the tone name against the fixed
five-preset table, any name outside the table resolving to the neutral
preset — in particular `get_params "unknown-tone" 1 = get_params "neutral" 1`
— and the returned `length_scale` is the chosen preset's `length_scale`
divided by the speed (so doubling the speed halves it), with `noise_scale`
and `noise_scale_w` taken from the preset unchanged. -/
theorem get_params_contract (tone : String) (s : ℚ) (hs : 0 < s) :
    (tonePreset tone = none → get_params tone s = get_params "neutral" s) ∧
    get_params "unknown-tone" 1 = get_params "neutral" 1 ∧
    (get_params "neutral" 2).length_scale
      = (get_params "neutral" 1).length_scale / 2 ∧
    (get_params tone s).noise_scale
      = ((tonePreset tone).getD neutralPreset).noise_scale ∧
    (get_params tone s).noise_scale_w
      = ((tonePreset tone).getD neutralPreset).noise_scale_w ∧
    (get_params tone s).length_scale
      = ((tonePreset tone).getD neutralPreset).length_scale / s := by
  refine ⟨?_, rfl, by norm_num [get_params, tonePreset, neutralPreset],
    rfl, rfl, rfl⟩
  intro h
  have hn : tonePreset "neutral" = some neutralPreset := rfl
  simp [get_params, h, hn]

/-- Claim C8 witness: evaluated at the unknown tone name with speed 1. -/
theorem get_params_contract_witness :
    (0 : ℚ) < 1 ∧ tonePreset "unknown-tone" = none ∧
    get_params "unknown-tone" 1 = get_params "neutral" 1 :=
  ⟨zero_lt_one, rfl,
    (get_params_contract "unknown-tone" 1 zero_lt_one).1 rfl⟩

/-- Claim C9: over every sequence of valid submissions, the `message_id`
values returned by the Ledger's add operation are pairwise strictly
increasing in submission order, hence unique. -/
theorem message_ids_strictly_increasing (s : HistoryStore)
    (subs : List (String × String × String)) :
    ((add_all s subs).1).Pairwise (· < ·) ∧ ((add_all s subs).1).Nodup := by
  have main : ∀ s : HistoryStore, ((add_all s subs).1).Pairwise (· < ·) := by
    induction subs with
    | nil => intro s; simp [add_all]
    | cons sub subs ih =>
      intro s
      simp only [add_all, List.pairwise_cons]
      refine ⟨?_, ih _⟩
      intro i hi
      have hlb := add_all_ids_lb subs _ i hi
      have hfst : (add_message s sub.1 sub.2.1 sub.2.2).1 = s.nextId := rfl
      have hsnd : (add_message s sub.1 sub.2.1 sub.2.2).2.nextId
          = s.nextId + 1 := rfl
      rw [hsnd] at hlb
      rw [hfst]
      omega
  exact ⟨main s, (main s).imp (fun hlt => Nat.ne_of_lt hlt)⟩

/-- Claim C10: feeding an empty chunk while not interrupted is a no-op: it
returns `True`, enqueues nothing, and leaves the whole player state — in
particular the accumulated `total_samples` — unchanged. -/
theorem feed_empty_noop (st : PlayerState) (samples : List ℚ)
    (hi : st.interrupted = false) (hl : samples.length = 0) :
    feed st samples = (true, st) := by
  simp [feed, hi, hl]

/-- Claim C10 witness: feeding the empty chunk to a fresh player. -/
theorem feed_empty_noop_witness :
    initPlayer.interrupted = false ∧ ([] : List ℚ).length = 0 ∧
    feed initPlayer [] = (true, initPlayer) :=
  ⟨rfl, rfl, feed_empty_noop initPlayer [] rfl rfl⟩

end SpeakUp
